import Mathlib

/-!
Verification of the cyber_ids artifact-management and inference pipeline
(`services.py`, `artifacts_config.py`) against its specification.

Modelling choices (shallow embedding):
* Python float values are modelled by `Val`: NaN, +Infinity, -Infinity, or an
  exact rational.  No floating-point arithmetic occurs in the verified code
  (values are only looked up, compared against masks and copied), so exact
  rationals are faithful; `astype("float32")` / `astype("float64")` are the
  identity on this domain (NaN and the infinities are preserved by numpy's
  casts, and rounding precision is not modelled).
* A pandas DataFrame is a row-index list, a column-name list, and a
  rectangular list of rows (`rows[i][j]` is the cell at row `i`, column
  position `j`), mirroring the positional numpy array the code operates on.
* Filenames and version strings are `List Char` (Python strings compare
  lexicographically by code point, exactly the `List Char` linear order).
* The filesystem is a record of directory listings plus content oracles for
  the four artifact readers (`joblib.load` / `json.load`).
* `load_artifacts` threads the process-wide cache slot explicitly
  (input cache, output cache) and reports a count of disk accesses, so the
  "no disk I/O on the fast path" property is statable.
-/

/-- A numpy/pandas float64 cell value: NaN, +inf, -inf, or a finite number
(modelled as an exact rational). -/
inductive Val where
  | nan : Val
  | inf : Val
  | ninf : Val
  | num : ℚ → Val
deriving DecidableEq

/-- Model of `np.isfinite` on a cell value. -/
def Val.isFinite : Val → Bool
  | .num _ => true
  | _ => false

/-- Model of `np.isnan` on a cell value. -/
def Val.isNaN : Val → Bool
  | .nan => true
  | _ => false

/-- Model of `astype("float32")`: the identity in this exact-rational model (see the
module docstring; precision is not modelled, NaN/inf are preserved). -/
def float32 (v : Val) : Val := v

/-- The sanitizer blob: `{columns: [...], medians: [...]}` saved at training
time (`sanitizer["columns"]`, `sanitizer["medians"]` in `apply_sanitizer`). -/
structure Sanitizer where
  columns : List String
  medians : List Val

/-- A pandas DataFrame: row index labels, column names, and the rectangular
cell data in row-major order. -/
structure DataFrame where
  rowIdx : List Nat
  cols : List String
  rows : List (List Val)

/-- Model of `X.reindex(columns=columns)`: the result has exactly `columns`, in order;
a target column present in `X` keeps its values (looked up at its position in
`X.cols`), an absent one becomes an all-NaN column. -/
def DataFrame.reindexColumns (X : DataFrame) (columns : List String) : DataFrame :=
  { rowIdx := X.rowIdx
    cols := columns
    rows := X.rows.map (fun row => columns.map (fun c =>
      match X.cols.indexOf? c with
      | some k => row.getD k Val.nan
      | none => Val.nan)) }

/-- The value stored in `X` at row position `i`, column named `c` (NaN when
the column is absent), i.e. what `X.reindex` would place there. -/
def DataFrame.valueAt (X : DataFrame) (i : Nat) (c : String) : Val :=
  match X.cols.indexOf? c with
  | some k => (X.rows.getD i []).getD k Val.nan
  | none => Val.nan

/-- Model of `arr[non_finite_mask] = np.nan`: send every non-finite entry (NaN stays
NaN, infinities become NaN) to NaN. -/
def toNaNIfNonFinite (v : Val) : Val := if v.isFinite then v else Val.nan

/-- Model of `arr[inds] = medians[inds[1]]`: impute each NaN at column position `j`
with `medians[j]`.  (numpy raises IndexError when a NaN sits in a column
position beyond `len(medians)`; that out-of-range lookup is modelled as NaN
and excluded by the length hypotheses of the theorems below.) -/
def imputeWithMedians (medians : List Val) (row : List Val) : List Val :=
  row.mapIdx (fun j v => if v.isNaN then medians.getD j Val.nan else v)

/-- Model of `apply_sanitizer(X, sanitizer)` from `services.py`:
reindex to `sanitizer["columns"]`, coerce to float64 (identity here), convert
non-finite entries to NaN, impute NaNs with the per-column training medians,
cast to float32, and rebuild the frame with the input's row index. -/
def apply_sanitizer (X : DataFrame) (s : Sanitizer) : DataFrame :=
  let X_num := X.reindexColumns s.columns
  let arr1 := X_num.rows.map (fun row => row.map toNaNIfNonFinite)
  let arr2 := arr1.map (imputeWithMedians s.medians)
  { rowIdx := X.rowIdx
    cols := s.columns
    rows := arr2.map (fun row => row.map float32) }

/-- Diagnostic `non_finite_mask.sum()`: the count of non-finite entries the sanitizer
reports converting to NaN. -/
def apply_sanitizer_nonfinite_count (X : DataFrame) (s : Sanitizer) : Nat :=
  (((X.reindexColumns s.columns).rows).map
    (fun row => (row.filter (fun v => !v.isFinite)).length)).sum

/-- Diagnostic `nan_mask.sum()`: the count of NaN entries (pre-existing plus freshly
converted) the sanitizer reports imputing with training medians. -/
def apply_sanitizer_imputed_count (X : DataFrame) (s : Sanitizer) : Nat :=
  ((((X.reindexColumns s.columns).rows).map (fun row => row.map toNaNIfNonFinite)).map
    (fun row => (row.filter Val.isNaN).length)).sum

/-- A filename or version string, as a list of Unicode code points (Python
string comparison is exactly the lexicographic order on `List Char`). -/
abbrev Filename := List Char

/-- Constant `MODEL_BASENAME` from `artifacts_config.py`. -/
def MODEL_BASENAME : Filename := "cyber_ids_champion".data

/-- Constant `FEATURES_BASENAME` from `artifacts_config.py`. -/
def FEATURES_BASENAME : Filename := "cyber_ids_features".data

/-- Constant `METADATA_BASENAME` from `artifacts_config.py`. -/
def METADATA_BASENAME : Filename := "cyber_ids_metadata".data

/-- Constant `SANITIZER_BASENAME` from `artifacts_config.py`. -/
def SANITIZER_BASENAME : Filename := "cyber_ids_sanitizer".data

/-- Constant `MODEL_SUFFIX` from `artifacts_config.py`. -/
def MODEL_SUFFIX : Filename := ".joblib".data

/-- Constant `META_SUFFIX` from `artifacts_config.py`. -/
def META_SUFFIX : Filename := ".json".data

/-- Constant `SANITIZER_SUFFIX` from `artifacts_config.py`. -/
def SANITIZER_SUFFIX : Filename := ".joblib".data

/-- Constant `DEFAULT_DECISION_THRESHOLD` from `artifacts_config.py`. -/
def DEFAULT_DECISION_THRESHOLD : ℚ := 0.5

/-- The literal part before `*` in the glob pattern
`f"{METADATA_BASENAME}_*{META_SUFFIX}"`, which is also the stem-start checked
by `_discover_latest_version` (`f"{METADATA_BASENAME}_"`). -/
def metaGlobPre : Filename := METADATA_BASENAME ++ "_".data

/-- Whether filename `f` matches the glob pattern `pre*suf` (where `pre` and
`suf` are literal): `f` starts with `pre`, ends with `suf`, and is long
enough that the two literal parts do not overlap (`*` matches the possibly
empty middle; filenames contain no path separator). -/
def globMatches (pre suf f : Filename) : Bool :=
  pre.isPrefixOf f && suf.isSuffixOf f && decide (pre.length + suf.length ≤ f.length)

/-- The character index of the last `.` in a filename (Python
`name.rfind('.')`), `none` when there is no dot. -/
def lastDotIdx (f : Filename) : Option Nat :=
  (f.reverse.findIdx? (fun c => c == '.')).map (fun k => f.length - 1 - k)

/-- Model of `pathlib.PurePath.stem`: the filename without its last suffix; the whole
name when the last dot is leading or trailing or absent. -/
def stem (f : Filename) : Filename :=
  match lastDotIdx f with
  | some i => if 0 < i ∧ i < f.length - 1 then f.take i else f
  | none => f

/-- The errors of the artifact layer, per the spec's taxonomy: `NotFoundError`
(no metadata file matches the discovery pattern), `MalformedNameError` (a
matched filename's stem does not start with the expected part), and
`MissingArtifactError` (a required artifact file for a resolved version is
absent; carries the missing path). -/
inductive LoadErr where
  | notFound : LoadErr
  | malformedName : LoadErr
  | missingArtifact : Filename → LoadErr
deriving DecidableEq

/-- Model of `_discover_latest_version` from `services.py`: glob the metadata
directory for `cyber_ids_metadata_*.json`, sort lexicographically, take the
last; fail when nothing matches; defensively fail when the chosen stem does
not start with `cyber_ids_metadata_`; otherwise return the stem with that
part stripped (the version string). -/
def _discover_latest_version (metaDirFiles : List Filename) : Except LoadErr Filename :=
  let candidates :=
    (metaDirFiles.filter (fun f => globMatches metaGlobPre META_SUFFIX f)).mergeSort
      (fun a b => decide (a ≤ b))
  match candidates.getLast? with
  | none => Except.error LoadErr.notFound
  | some latest =>
      let name := stem latest
      if metaGlobPre.isPrefixOf name then Except.ok (name.drop metaGlobPre.length)
      else Except.error LoadErr.malformedName

/-- The metadata JSON object; its contents are opaque to the verified core
(only the boundary layer reads keys from it), modelled as a key/value list. -/
abbrev Metadata := List (String × String)

/-- Model of `ArtifactBundle` from `services.py`: the container for one loaded
version.  The model is its only capability used here: score a numeric table
into per-row positive-class probabilities (`predict_proba(...)[:, 1]`). -/
structure ArtifactBundle where
  version : Filename
  model : DataFrame → List ℚ
  feature_names : List String
  metadata : Metadata
  sanitizer : Sanitizer

/-- The filesystem as seen by `load_artifacts`: the listings of `MODELS_DIR`
and `META_DIR`, plus content oracles giving what each reader
(`joblib.load`, `json.load`) would produce for a given filename. -/
structure FS where
  modelsDir : List Filename
  metaDir : List Filename
  loadModelBlob : Filename → (DataFrame → List ℚ)
  featurePayload : Filename → Option (List String)
  metadataContent : Filename → Metadata
  sanitizerBlob : Filename → Sanitizer

/-- Path `MODELS_DIR / f"{MODEL_BASENAME}_{version}{MODEL_SUFFIX}"` (the filename
part; the directory is fixed). -/
def model_filename (v : Filename) : Filename := MODEL_BASENAME ++ "_".data ++ v ++ MODEL_SUFFIX

/-- Path `META_DIR / f"{FEATURES_BASENAME}_{version}{META_SUFFIX}"`. -/
def feature_list_filename (v : Filename) : Filename :=
  FEATURES_BASENAME ++ "_".data ++ v ++ META_SUFFIX

/-- Path `META_DIR / f"{METADATA_BASENAME}_{version}{META_SUFFIX}"`. -/
def metadata_filename (v : Filename) : Filename :=
  METADATA_BASENAME ++ "_".data ++ v ++ META_SUFFIX

/-- Path `META_DIR / f"{SANITIZER_BASENAME}_{version}{SANITIZER_SUFFIX}"`. -/
def sanitizer_filename (v : Filename) : Filename :=
  SANITIZER_BASENAME ++ "_".data ++ v ++ SANITIZER_SUFFIX

/-- Model of `if version is None: version = _discover_latest_version()`. -/
def resolve_version (fs : FS) (version : Option Filename) : Except LoadErr Filename :=
  match version with
  | some v => Except.ok v
  | none => _discover_latest_version fs.metaDir

/-- The observable outcome of one `load_artifacts` call: the returned bundle
or raised error, the process-wide cache slot after the call, and how many
disk accesses (directory glob, existence checks, file reads) were made. -/
structure LoadResult where
  outcome : Except LoadErr ArtifactBundle
  cacheAfter : Option ArtifactBundle
  diskReads : Nat

/-- Model of `load_artifacts(version, use_cache)` from `services.py`, with the global
`_ARTIFACT_CACHE` threaded explicitly as `cache` / `.cacheAfter`.
Fast path: cache hit when `use_cache` and no explicit version.  Otherwise
resolve the version (discovery when absent), check the four artifact files
exist in order (model, feature list, metadata, sanitizer) raising
`missingArtifact` with the first absent path, read the four files, build the
bundle, and finally store it in the cache under the source's guard
`use_cache and version is not None` — whose second conjunct is always true at
that point, since the local `version` was just resolved to a string. -/
def load_artifacts (fs : FS) (cache : Option ArtifactBundle)
    (version : Option Filename) (use_cache : Bool) : LoadResult :=
  match use_cache, version, cache with
  | true, none, some cached => ⟨Except.ok cached, some cached, 0⟩
  | uc, ver, cach =>
    match resolve_version fs ver with
    | Except.error e => ⟨Except.error e, cach, 1⟩
    | Except.ok v =>
      let discReads := match ver with | none => 1 | some _ => 0
      let mp := model_filename v
      let fp := feature_list_filename v
      let mdp := metadata_filename v
      let sp := sanitizer_filename v
      if mp ∉ fs.modelsDir then ⟨Except.error (LoadErr.missingArtifact mp), cach, discReads + 1⟩
      else if fp ∉ fs.metaDir then
        ⟨Except.error (LoadErr.missingArtifact fp), cach, discReads + 2⟩
      else if mdp ∉ fs.metaDir then
        ⟨Except.error (LoadErr.missingArtifact mdp), cach, discReads + 3⟩
      else if sp ∉ fs.metaDir then
        ⟨Except.error (LoadErr.missingArtifact sp), cach, discReads + 4⟩
      else
        let bundle : ArtifactBundle :=
          { version := v
            model := fs.loadModelBlob mp
            feature_names := (fs.featurePayload fp).getD []
            metadata := fs.metadataContent mdp
            sanitizer := fs.sanitizerBlob sp }
        ⟨Except.ok bundle, if uc then some bundle else cach, discReads + 8⟩

/-- Model of `predict_from_dataframe(df, threshold, artifacts)` from `services.py`:
load artifacts when none are passed, reindex `df` to the bundle's
`feature_names`, sanitize with the bundle's sanitizer, score with the model,
and threshold the probabilities inclusively (`proba >= threshold`).
The source's default `threshold` is `DEFAULT_DECISION_THRESHOLD`; the
embedding passes it explicitly. -/
def predict_from_dataframe (fs : FS) (cache : Option ArtifactBundle) (df : DataFrame)
    (threshold : ℚ) (artifacts : Option ArtifactBundle) :
    Except LoadErr (List ℚ × List Nat × ArtifactBundle) :=
  match (match artifacts with
         | some a => Except.ok a
         | none => (load_artifacts fs cache none true).outcome) with
  | Except.error e => Except.error e
  | Except.ok a =>
      let df2 := df.reindexColumns a.feature_names
      let X_clean := apply_sanitizer df2 a.sanitizer
      let proba := a.model X_clean
      let labels := proba.map (fun p => if threshold ≤ p then (1 : Nat) else 0)
      Except.ok (proba, labels, a)

/-- The probabilities component of a `predict_from_dataframe` outcome
(empty on error). -/
def predictProbas (r : Except LoadErr (List ℚ × List Nat × ArtifactBundle)) : List ℚ :=
  match r with
  | Except.ok (p, _, _) => p
  | Except.error _ => []

/-- The labels component of a `predict_from_dataframe` outcome
(empty on error). -/
def predictLabels (r : Except LoadErr (List ℚ × List Nat × ArtifactBundle)) : List Nat :=
  match r with
  | Except.ok (_, l, _) => l
  | Except.error _ => []

/-! ### Helper lemmas -/

theorem indexOf?_eq_none_of_not_mem {α : Type} [BEq α] [LawfulBEq α] {a : α} {l : List α}
    (h : a ∉ l) : l.indexOf? a = none := by
  rw [List.indexOf?_eq_none_iff]
  intro x hx hb
  exact h (eq_of_beq hb ▸ hx)

theorem mem_of_indexOf?_eq_some {α : Type} [BEq α] [LawfulBEq α] {a : α} {l : List α} {k : Nat}
    (h : l.indexOf? a = some k) : a ∈ l := by
  by_contra hm
  rw [indexOf?_eq_none_of_not_mem hm] at h
  exact Option.noConfusion h

theorem indexOf?_getElem_of_nodup {α : Type} [BEq α] [LawfulBEq α] :
    ∀ {l : List α}, l.Nodup → ∀ {j : Nat} (hj : j < l.length), l.indexOf? l[j] = some j := by
  intro l
  induction l with
  | nil => intro _ j hj; simp at hj
  | cons x xs ih =>
    intro hnd j hj
    cases j with
    | zero =>
      simp [List.indexOf?, List.findIdx?_cons]
    | succ n =>
      have hn : n < xs.length := by simpa using hj
      have hx : (x == xs[n]) = false := by
        refine beq_eq_false_iff_ne.mpr ?_
        intro he
        exact (List.nodup_cons.mp hnd).1 (he ▸ List.getElem_mem hn)
      have := ih (List.nodup_cons.mp hnd).2 hn
      simp only [List.indexOf?] at this ⊢
      simp [List.findIdx?_cons, hx, List.findIdx?_succ, this]

/-- The cell at row position `i`, column position `j` of the sanitized frame:
reindex-lookup the input value, convert non-finite to NaN, impute NaN with the
`j`-th median, cast to float32. -/
theorem apply_sanitizer_cell (X : DataFrame) (s : Sanitizer) (i j : Nat)
    (hi : i < X.rows.length) (hj : j < s.columns.length) :
    ((apply_sanitizer X s).rows.getD i []).getD j Val.nan =
      float32 (if (toNaNIfNonFinite (X.valueAt i (s.columns.get ⟨j, hj⟩))).isNaN
               then s.medians.getD j Val.nan
               else toNaNIfNonFinite (X.valueAt i (s.columns.get ⟨j, hj⟩))) := by
  rw [List.getD_eq_getElem?_getD, List.getD_eq_getElem?_getD]
  simp only [apply_sanitizer, DataFrame.reindexColumns, imputeWithMedians,
    List.getElem?_map, List.getElem?_eq_getElem hi, Option.map_some', Option.getD_some,
    List.getElem?_mapIdx, List.getElem?_eq_getElem hj, List.get_eq_getElem]
  unfold DataFrame.valueAt
  rw [List.getD_eq_getElem _ _ hi]

/-- C1: `apply_sanitizer` returns a table with exactly the sanitizer's
columns in order and the input's row index; the cell at row `i`, column `j`
is `float32 medians[j]` when the input value at that row and column name is
NaN, +Infinity, -Infinity, or the column is absent, and the float32-cast
input value otherwise; input columns outside the spec are dropped (the output
has only `s.columns`), and an infinity is treated identically to a NaN. -/
theorem C1_apply_sanitizer_cells (X : DataFrame) (s : Sanitizer)
    (hlen : s.medians.length = s.columns.length) :
    (apply_sanitizer X s).cols = s.columns ∧
    (apply_sanitizer X s).rowIdx = X.rowIdx ∧
    (apply_sanitizer X s).rows.length = X.rows.length ∧
    ∀ i j (hi : i < X.rows.length) (hj : j < s.columns.length),
      ((apply_sanitizer X s).rows.getD i []).getD j Val.nan =
        if s.columns.get ⟨j, hj⟩ ∉ X.cols
            ∨ (X.valueAt i (s.columns.get ⟨j, hj⟩)).isNaN = true
            ∨ X.valueAt i (s.columns.get ⟨j, hj⟩) = Val.inf
            ∨ X.valueAt i (s.columns.get ⟨j, hj⟩) = Val.ninf
        then float32 (s.medians.get ⟨j, by omega⟩)
        else float32 (X.valueAt i (s.columns.get ⟨j, hj⟩)) := by
  refine ⟨rfl, rfl, by simp [apply_sanitizer, DataFrame.reindexColumns], ?_⟩
  intro i j hi hj
  have hjm : j < s.medians.length := by omega
  rw [apply_sanitizer_cell X s i j hi hj]
  set c := s.columns.get ⟨j, hj⟩ with hc
  by_cases hm : c ∈ X.cols
  · cases hv : X.valueAt i c with
    | nan =>
      simp [hv, toNaNIfNonFinite, Val.isNaN, Val.isFinite,
        List.getD_eq_getElem _ _ hjm, List.getElem?_eq_getElem hjm, List.get_eq_getElem]
    | inf =>
      simp [hv, toNaNIfNonFinite, Val.isNaN, Val.isFinite,
        List.getD_eq_getElem _ _ hjm, List.getElem?_eq_getElem hjm, List.get_eq_getElem]
    | ninf =>
      simp [hv, toNaNIfNonFinite, Val.isNaN, Val.isFinite,
        List.getD_eq_getElem _ _ hjm, List.getElem?_eq_getElem hjm, List.get_eq_getElem]
    | num q =>
      simp [hv, hm, toNaNIfNonFinite, Val.isNaN, Val.isFinite]
  · have hv : X.valueAt i c = Val.nan := by
      unfold DataFrame.valueAt
      rw [indexOf?_eq_none_of_not_mem hm]
    simp [hv, toNaNIfNonFinite, Val.isNaN, Val.isFinite,
      List.getD_eq_getElem _ _ hjm, List.getElem?_eq_getElem hjm, List.get_eq_getElem]

/-- Concrete sanitizer for the C1 witness: `columns=["a","b"]`,
`medians=[1.0, 2.0]`. -/
def sanC1 : Sanitizer := ⟨["a", "b"], [Val.num 1, Val.num 2]⟩

/-- Concrete one-row input for the C1 witness: `{a: +Infinity, b: 5.0}`. -/
def frameC1 : DataFrame := ⟨[0], ["a", "b"], [[Val.inf, Val.num 5]]⟩

/-- C1 witness: at the concrete input, the infinity in column `a` becomes the
median `1.0` and the finite `5.0` in column `b` is kept. -/
theorem C1_apply_sanitizer_cells_witness :
    sanC1.medians.length = sanC1.columns.length ∧
    ((apply_sanitizer frameC1 sanC1).rows.getD 0 []).getD 0 Val.nan = Val.num 1 ∧
    ((apply_sanitizer frameC1 sanC1).rows.getD 0 []).getD 1 Val.nan = Val.num 5 := by
  refine ⟨rfl, ?_, ?_⟩
  · rw [(C1_apply_sanitizer_cells frameC1 sanC1 rfl).2.2.2 0 0 (by decide) (by decide)]
    decide
  · rw [(C1_apply_sanitizer_cells frameC1 sanC1 rfl).2.2.2 0 1 (by decide) (by decide)]
    decide

/-- A finite value is not NaN. -/
theorem Val.not_nan_of_finite {v : Val} (h : v.isFinite = true) : v.isNaN = false := by
  cases v <;> simp_all [Val.isFinite, Val.isNaN]

/-- Reindexing a table that already has exactly the (duplicate-free) target
columns, with rectangular rows, is the identity. -/
theorem reindexColumns_self (X : DataFrame) (columns : List String)
    (hcols : X.cols = columns) (hnd : columns.Nodup)
    (hrect : ∀ row ∈ X.rows, row.length = columns.length) :
    X.reindexColumns columns = X := by
  obtain ⟨ri, cs, rws⟩ := X
  simp only [DataFrame.reindexColumns] at *
  subst hcols
  refine congrArg (DataFrame.mk ri cs) ?_
  have hrow : ∀ row ∈ rws, (cs.map (fun c =>
      match cs.indexOf? c with
      | some k => row.getD k Val.nan
      | none => Val.nan)) = row := by
    intro row hrow
    refine List.ext_getElem (by simp [hrect row hrow]) ?_
    intro j h1 h2
    have hj : j < cs.length := by simpa using h1
    rw [List.getElem_map]
    have hidx := indexOf?_getElem_of_nodup hnd hj
    simp only [hidx]
    exact List.getD_eq_getElem row Val.nan h2
  calc rws.map (fun row => cs.map (fun c =>
        match cs.indexOf? c with
        | some k => row.getD k Val.nan
        | none => Val.nan)) = rws.map id := List.map_congr_left (fun row h => hrow row h)
    _ = rws := List.map_id rws

/-- Two DataFrames with equal fields are equal. -/
theorem DataFrame.eq_of (A B : DataFrame) (h1 : A.rowIdx = B.rowIdx)
    (h2 : A.cols = B.cols) (h3 : A.rows = B.rows) : A = B := by
  cases A
  cases B
  simp_all

/-- C7: on an already-clean table (exactly the sanitizer's columns in order,
rectangular, no NaN or infinite values) `apply_sanitizer` returns the very
same table, reports zero non-finite conversions and zero imputations, and
applying it twice equals applying it once. -/
theorem C7_apply_sanitizer_idempotent (X : DataFrame) (s : Sanitizer)
    (hcols : X.cols = s.columns) (hnd : s.columns.Nodup)
    (hrect : ∀ row ∈ X.rows, row.length = s.columns.length)
    (hfin : ∀ row ∈ X.rows, ∀ v ∈ row, v.isFinite = true) :
    apply_sanitizer X s = X ∧
    apply_sanitizer_nonfinite_count X s = 0 ∧
    apply_sanitizer_imputed_count X s = 0 ∧
    apply_sanitizer (apply_sanitizer X s) s = apply_sanitizer X s := by
  have hreidx : X.reindexColumns s.columns = X := reindexColumns_self X s.columns hcols hnd hrect
  have hnonan : ∀ row ∈ X.rows, ∀ v ∈ row, v.isNaN = false := fun row hr v hv =>
    Val.not_nan_of_finite (hfin row hr v hv)
  have hrowmap : ∀ row ∈ X.rows, row.map toNaNIfNonFinite = row := by
    intro row hr
    calc row.map toNaNIfNonFinite = row.map id :=
          List.map_congr_left (fun v hv => by simp [toNaNIfNonFinite, hfin row hr v hv])
      _ = row := List.map_id row
  have himp : ∀ row ∈ X.rows, imputeWithMedians s.medians row = row := by
    intro row hr
    refine List.ext_getElem (by simp [imputeWithMedians]) ?_
    intro j h1 h2
    simp only [imputeWithMedians, List.getElem_mapIdx]
    rw [hnonan row hr _ (List.getElem_mem h2)]
    simp
  have hfloat : ∀ row : List Val, row.map float32 = row := by
    intro row
    calc row.map float32 = row.map id := List.map_congr_left (fun v _ => rfl)
      _ = row := List.map_id row
  have e1 : X.rows.map (fun row => row.map toNaNIfNonFinite) = X.rows := by
    calc X.rows.map (fun row => row.map toNaNIfNonFinite) = X.rows.map id :=
          List.map_congr_left (fun row h => hrowmap row h)
      _ = X.rows := List.map_id _
  have e2 : X.rows.map (imputeWithMedians s.medians) = X.rows := by
    calc X.rows.map (imputeWithMedians s.medians) = X.rows.map id :=
          List.map_congr_left (fun row h => himp row h)
      _ = X.rows := List.map_id _
  have e3 : X.rows.map (fun row => row.map float32) = X.rows := by
    calc X.rows.map (fun row => row.map float32) = X.rows.map id :=
          List.map_congr_left (fun row _ => hfloat row)
      _ = X.rows := List.map_id _
  have hrows3 : (apply_sanitizer X s).rows = X.rows := by
    simp only [apply_sanitizer]
    rw [hreidx, e1, e2, e3]
  have happ : apply_sanitizer X s = X :=
    DataFrame.eq_of _ _ rfl hcols.symm hrows3
  refine ⟨happ, ?_, ?_, by rw [happ]; exact happ⟩
  · unfold apply_sanitizer_nonfinite_count
    rw [hreidx]
    refine List.sum_eq_zero ?_
    intro x hx
    rcases List.mem_map.mp hx with ⟨row, hr, rfl⟩
    have hnil : row.filter (fun v => !v.isFinite) = [] := by
      refine List.filter_eq_nil_iff.mpr ?_
      intro v hv
      simp [hfin row hr v hv]
    rw [hnil]
    rfl
  · unfold apply_sanitizer_imputed_count
    rw [hreidx]
    refine List.sum_eq_zero ?_
    intro x hx
    rcases List.mem_map.mp hx with ⟨row2, hr2, rfl⟩
    rcases List.mem_map.mp hr2 with ⟨row, hr, rfl⟩
    have hnil : row.filter Val.isNaN = [] := by
      refine List.filter_eq_nil_iff.mpr ?_
      intro v hv
      simp [hnonan row hr v hv]
    rw [hrowmap row hr, hnil]
    rfl

/-- Concrete sanitizer for the C7 witness. -/
def sanC7 : Sanitizer := ⟨["a", "b"], [Val.num 1, Val.num 2]⟩

/-- Concrete already-clean table for the C7 witness. -/
def frameC7 : DataFrame := ⟨[0], ["a", "b"], [[Val.num 3, Val.num 4]]⟩

/-- C7 witness: a concrete clean table is returned unchanged with zero
reported repairs, and sanitizing twice equals sanitizing once. -/
theorem C7_apply_sanitizer_idempotent_witness :
    frameC7.cols = sanC7.columns ∧ sanC7.columns.Nodup ∧
    (∀ row ∈ frameC7.rows, row.length = sanC7.columns.length) ∧
    (∀ row ∈ frameC7.rows, ∀ v ∈ row, v.isFinite = true) ∧
    apply_sanitizer frameC7 sanC7 = frameC7 ∧
    apply_sanitizer_nonfinite_count frameC7 sanC7 = 0 ∧
    apply_sanitizer_imputed_count frameC7 sanC7 = 0 ∧
    apply_sanitizer (apply_sanitizer frameC7 sanC7) sanC7 = apply_sanitizer frameC7 sanC7 := by
  have h := C7_apply_sanitizer_idempotent frameC7 sanC7 rfl (by decide) (by decide) (by decide)
  exact ⟨rfl, by decide, by decide, by decide, h.1, h.2.1, h.2.2.1, h.2.2.2⟩

/-- C9: when the sanitizer's medians are all finite and at least as numerous
as its columns, the sanitized table contains no NaN cell. -/
theorem C9_apply_sanitizer_no_nan (X : DataFrame) (s : Sanitizer)
    (hfinm : ∀ m ∈ s.medians, m.isFinite = true)
    (hlen : s.columns.length ≤ s.medians.length) :
    ∀ row ∈ (apply_sanitizer X s).rows, ∀ v ∈ row, v.isNaN = false := by
  intro row hrow v hv
  simp only [apply_sanitizer, DataFrame.reindexColumns] at hrow
  rcases List.mem_map.mp hrow with ⟨row2, hr2, rfl⟩
  rcases List.mem_map.mp hr2 with ⟨row1, hr1, rfl⟩
  rcases List.mem_map.mp hr1 with ⟨row0, hr0, rfl⟩
  rcases List.mem_map.mp hr0 with ⟨r, hr, rfl⟩
  rcases List.mem_map.mp hv with ⟨w, hw, rfl⟩
  rcases List.mem_mapIdx.mp hw with ⟨j, hj, hwj⟩
  have hjc : j < s.columns.length := by simpa using hj
  have hjm : j < s.medians.length := lt_of_lt_of_le hjc hlen
  subst hwj
  show (float32 _).isNaN = false
  simp only [float32]
  by_cases hn : (((s.columns.map (fun c =>
      match X.cols.indexOf? c with
      | some k => r.getD k Val.nan
      | none => Val.nan)).map toNaNIfNonFinite)[j]).isNaN = true
  · rw [if_pos hn, List.getD_eq_getElem _ _ hjm]
    exact Val.not_nan_of_finite (hfinm _ (List.getElem_mem hjm))
  · rw [if_neg hn]
    exact Bool.not_eq_true _ ▸ hn

/-- Concrete dirty table for the C9 witness: a NaN and an infinity. -/
def frameC9 : DataFrame := ⟨[0], ["a", "b"], [[Val.nan, Val.inf]]⟩

/-- C9 witness: at a concrete dirty input every sanitized cell is non-NaN. -/
theorem C9_apply_sanitizer_no_nan_witness :
    (∀ m ∈ sanC7.medians, m.isFinite = true) ∧
    sanC7.columns.length ≤ sanC7.medians.length ∧
    ∀ row ∈ (apply_sanitizer frameC9 sanC7).rows, ∀ v ∈ row, v.isNaN = false :=
  ⟨by decide, by decide, C9_apply_sanitizer_no_nan frameC9 sanC7 (by decide) (by decide)⟩

/-- C2: `predict_from_dataframe` labels each row by inclusive threshold
comparison — label `1` exactly when the probability is at least the
threshold, so a probability equal to the threshold yields `1` — and the
configuration default threshold is 0.5. -/
theorem C2_predict_labels_threshold (fs : FS) (cache : Option ArtifactBundle)
    (df : DataFrame) (a : ArtifactBundle) (t : ℚ) :
    (predictLabels (predict_from_dataframe fs cache df t (some a))).length =
      (predictProbas (predict_from_dataframe fs cache df t (some a))).length ∧
    (∀ i, i < (predictProbas (predict_from_dataframe fs cache df t (some a))).length →
      (predictLabels (predict_from_dataframe fs cache df t (some a))).getD i 0 =
        if t ≤ (predictProbas (predict_from_dataframe fs cache df t (some a))).getD i 0
        then 1 else 0) ∧
    (∀ i, i < (predictProbas (predict_from_dataframe fs cache df t (some a))).length →
      (predictProbas (predict_from_dataframe fs cache df t (some a))).getD i 0 = t →
      (predictLabels (predict_from_dataframe fs cache df t (some a))).getD i 0 = 1) ∧
    DEFAULT_DECISION_THRESHOLD = 1 / 2 := by
  refine ⟨by simp [predict_from_dataframe, predictLabels, predictProbas], ?_, ?_, by norm_num [DEFAULT_DECISION_THRESHOLD]⟩
  · intro i hi
    simp only [predict_from_dataframe, predictLabels, predictProbas] at hi ⊢
    simp only [List.getD_eq_getElem?_getD, List.getElem?_map,
      List.getElem?_eq_getElem hi, Option.map_some', Option.getD_some]
  · intro i hi hp
    simp only [predict_from_dataframe, predictLabels, predictProbas] at hi hp ⊢
    simp only [List.getD_eq_getElem?_getD, List.getElem?_map,
      List.getElem?_eq_getElem hi, Option.map_some', Option.getD_some] at hp ⊢
    rw [hp]
    simp

/-- A trivial filesystem (no files) for witnesses that pass the bundle
explicitly. -/
def fsTriv : FS := ⟨[], [], fun _ => fun _ => [], fun _ => none, fun _ => [], fun _ => ⟨[], []⟩⟩

/-- Concrete bundle for the C2 witness: an opaque model that scores the two
rows at exactly the threshold and above it. -/
def bundleC2 : ArtifactBundle :=
  ⟨"v1".data, fun _ => [1 / 2, 3 / 4], ["a"], [], ⟨["a"], [Val.num 0]⟩⟩

/-- Concrete two-row input for the C2 witness. -/
def frameC2 : DataFrame := ⟨[0, 1], ["a"], [[Val.num 1], [Val.num 2]]⟩

/-- C2 witness: with threshold 1/2 a probability exactly equal to the
threshold yields label 1. -/
theorem C2_predict_labels_threshold_witness :
    0 < (predictProbas (predict_from_dataframe fsTriv none frameC2 (1 / 2) (some bundleC2))).length ∧
    (predictProbas (predict_from_dataframe fsTriv none frameC2 (1 / 2) (some bundleC2))).getD 0 0 =
      1 / 2 ∧
    (predictLabels (predict_from_dataframe fsTriv none frameC2 (1 / 2) (some bundleC2))).getD 0 0 =
      1 := by
  refine ⟨by decide, by rfl, ?_⟩
  exact (C2_predict_labels_threshold fsTriv none frameC2 bundleC2 (1 / 2)).2.2.1 0 (by decide)
    (by rfl)

/-- C8: `predict_from_dataframe` reindexes the input to
`bundle.feature_names` first and sanitizes second, so the table scored by
the model has exactly `sanitizer.columns`; for a column in the input and in
`sanitizer.columns` but absent from `feature_names`, the input's values are
discarded and the scored table holds that column's training median in every
row. -/
theorem C8_predict_reindex_then_sanitize (fs : FS) (cache : Option ArtifactBundle)
    (df : DataFrame) (a : ArtifactBundle) (t : ℚ) :
    predictProbas (predict_from_dataframe fs cache df t (some a)) =
      a.model (apply_sanitizer (df.reindexColumns a.feature_names) a.sanitizer) ∧
    (apply_sanitizer (df.reindexColumns a.feature_names) a.sanitizer).cols =
      a.sanitizer.columns ∧
    (apply_sanitizer (df.reindexColumns a.feature_names) a.sanitizer).rows.length =
      df.rows.length ∧
    ∀ j (hj : j < a.sanitizer.columns.length) (hjm : j < a.sanitizer.medians.length),
      a.sanitizer.columns.get ⟨j, hj⟩ ∈ df.cols →
      a.sanitizer.columns.get ⟨j, hj⟩ ∉ a.feature_names →
      ∀ i, i < df.rows.length →
        ((apply_sanitizer (df.reindexColumns a.feature_names) a.sanitizer).rows.getD i
            []).getD j Val.nan =
          float32 (a.sanitizer.medians.get ⟨j, hjm⟩) := by
  refine ⟨rfl, rfl, by simp [apply_sanitizer, DataFrame.reindexColumns], ?_⟩
  intro j hj hjm hin hnot i hi
  have hi2 : i < (df.reindexColumns a.feature_names).rows.length := by
    simp [DataFrame.reindexColumns, hi]
  rw [apply_sanitizer_cell (df.reindexColumns a.feature_names) a.sanitizer i j hi2 hj]
  have hv : (df.reindexColumns a.feature_names).valueAt i (a.sanitizer.columns.get ⟨j, hj⟩) =
      Val.nan := by
    unfold DataFrame.valueAt
    have hcols : (df.reindexColumns a.feature_names).cols = a.feature_names := rfl
    rw [hcols, indexOf?_eq_none_of_not_mem hnot]
  rw [hv]
  simp [toNaNIfNonFinite, Val.isNaN, Val.isFinite, List.getD_eq_getElem _ _ hjm,
    List.getElem?_eq_getElem hjm, List.get_eq_getElem]

/-- Concrete bundle for the C8 witness: the model expects only column `"a"`
while the sanitizer operates on `["a", "b"]`. -/
def bundleC8 : ArtifactBundle :=
  ⟨"v1".data, fun X => X.rows.map (fun _ => 1 / 4), ["a"], [], ⟨["a", "b"], [Val.num 1, Val.num 2]⟩⟩

/-- Concrete input for the C8 witness: column `"b"` is present with value 9,
which is discarded because the model reindex drops it first. -/
def frameC8 : DataFrame := ⟨[0], ["a", "b"], [[Val.num 3, Val.num 9]]⟩

/-- C8 witness: at the concrete input, the scored table's `"b"` cell holds
the training median 2, not the input's 9. -/
theorem C8_predict_reindex_then_sanitize_witness :
    ("b" ∈ frameC8.cols) ∧ ("b" ∉ bundleC8.feature_names) ∧
    ((apply_sanitizer (frameC8.reindexColumns bundleC8.feature_names)
        bundleC8.sanitizer).rows.getD 0 []).getD 1 Val.nan = Val.num 2 := by
  have h := (C8_predict_reindex_then_sanitize fsTriv none frameC8 bundleC8 (1 / 2)).2.2.2 1
    (by decide) (by decide) (by decide) (by decide) 0 (by decide)
  refine ⟨by decide, by decide, ?_⟩
  rw [h]
  rfl

/-- The boolean lexicographic order used to sort glob candidates is
transitive. -/
theorem lexLe_trans (a b c : Filename) (hab : decide (a ≤ b) = true)
    (hbc : decide (b ≤ c) = true) : decide (a ≤ c) = true := by
  simp only [decide_eq_true_eq] at *
  exact le_trans hab hbc

/-- The boolean lexicographic order used to sort glob candidates is total. -/
theorem lexLe_total (a b : Filename) : (decide (a ≤ b) || decide (b ≤ a)) = true := by
  simp only [Bool.or_eq_true, decide_eq_true_eq]
  exact le_total a b

/-- In a `≤`-pairwise (sorted) list the last element is a maximum. -/
theorem sorted_le_getLast {l : List Filename}
    (hp : List.Pairwise (fun x y : Filename => x ≤ y) l) (h : l ≠ []) :
    ∀ x ∈ l, x ≤ l.getLast h := by
  intro x hx
  obtain ⟨i, hi, rfl⟩ := List.getElem_of_mem hx
  rw [List.getLast_eq_getElem]
  rcases Nat.lt_or_ge i (l.length - 1) with hlt | hge
  · exact (List.pairwise_iff_getElem.mp hp) i (l.length - 1) hi (by omega) hlt
  · have hieq : i = l.length - 1 := by omega
    subst hieq
    exact le_refl _

/-- A filename matching the metadata glob pattern decomposes as
`metaGlobPre ++ mid ++ ".json"`; its `stem` is `metaGlobPre ++ mid`, which
starts with `metaGlobPre` — so the defensive malformed-name check always
passes on glob candidates. -/
theorem matched_stem {f : Filename} (h : globMatches metaGlobPre META_SUFFIX f = true) :
    metaGlobPre.isPrefixOf (stem f) = true := by
  simp only [globMatches, Bool.and_eq_true, decide_eq_true_eq] at h
  obtain ⟨⟨hpreB, hsufB⟩, hlen⟩ := h
  have hpre : metaGlobPre <+: f := List.isPrefixOf_iff_prefix.mp hpreB
  have hsuf : META_SUFFIX <:+ f := List.isSuffixOf_iff_suffix.mp hsufB
  obtain ⟨u, hu⟩ := hsuf
  have hslen : META_SUFFIX.length = 5 := rfl
  have hmlen : metaGlobPre.length = 19 := rfl
  have hflen : f.length = u.length + 5 := by
    rw [← hu, List.length_append, hslen]
  have hplen : metaGlobPre.length ≤ u.length := by omega
  have hrev : f.reverse = 'n' :: 'o' :: 's' :: 'j' :: '.' :: u.reverse := by
    rw [← hu, List.reverse_append]
    rfl
  have hfind : f.reverse.findIdx? (fun c => c == '.') = some 4 := by
    rw [hrev]
    rfl
  have hlast : lastDotIdx f = some u.length := by
    unfold lastDotIdx
    rw [hfind, Option.map_some']
    have : f.length - 1 - 4 = u.length := by omega
    rw [this]
  have hstem : stem f = u := by
    unfold stem
    rw [hlast]
    show (if 0 < u.length ∧ u.length < f.length - 1 then f.take u.length else f) = u
    have hcond : 0 < u.length ∧ u.length < f.length - 1 := by omega
    rw [if_pos hcond, ← hu, List.take_left]
  have hpu : metaGlobPre <+: u := by
    have he : metaGlobPre = List.take metaGlobPre.length f := List.prefix_iff_eq_take.mp hpre
    rw [← hu, List.take_append_eq_append_take] at he
    have h0 : metaGlobPre.length - u.length = 0 := by omega
    rw [h0, List.take_zero, List.append_nil] at he
    exact he ▸ List.take_prefix _ u
  rw [hstem]
  exact List.isPrefixOf_iff_prefix.mpr hpu

/-- The last element of the sorted candidate list is one of the glob
matches. -/
theorem discover_getLast_mem {files : List Filename} {latest : Filename}
    (hl : ((files.filter (fun f => globMatches metaGlobPre META_SUFFIX f)).mergeSort
        (fun a b => decide (a ≤ b))).getLast? = some latest) :
    latest ∈ files.filter (fun f => globMatches metaGlobPre META_SUFFIX f) := by
  set cands := (files.filter (fun f => globMatches metaGlobPre META_SUFFIX f)).mergeSort
    (fun a b => decide (a ≤ b)) with hc
  have hcne : cands ≠ [] := by
    intro h0
    rw [h0] at hl
    simp at hl
  rw [List.getLast?_eq_getLast _ hcne] at hl
  have hmem : latest ∈ cands := (Option.some.inj hl) ▸ List.getLast_mem hcne
  exact (List.mergeSort_perm _ _).mem_iff.mp hmem

/-- The sorted candidate list is pairwise `≤`-ordered. -/
theorem discover_sorted (files : List Filename) :
    List.Pairwise (fun x y : Filename => x ≤ y)
      ((files.filter (fun f => globMatches metaGlobPre META_SUFFIX f)).mergeSort
        (fun a b => decide (a ≤ b))) :=
  List.Pairwise.imp (fun h => of_decide_eq_true h)
    (List.sorted_mergeSort lexLe_trans lexLe_total
      (files.filter (fun f => globMatches metaGlobPre META_SUFFIX f)))

/-- C3: version discovery fails with `NotFoundError` exactly when no filename
matches `cyber_ids_metadata_*.json`; otherwise it returns the
prefix-stripped stem of the lexicographically greatest matching filename. -/
theorem C3_discover_latest_version_spec (files : List Filename) :
    (_discover_latest_version files = Except.error LoadErr.notFound ↔
      files.filter (fun f => globMatches metaGlobPre META_SUFFIX f) = []) ∧
    (files.filter (fun f => globMatches metaGlobPre META_SUFFIX f) ≠ [] →
      ∃ m, m ∈ files.filter (fun f => globMatches metaGlobPre META_SUFFIX f) ∧
        (∀ f ∈ files.filter (fun f => globMatches metaGlobPre META_SUFFIX f), f ≤ m) ∧
        _discover_latest_version files = Except.ok ((stem m).drop metaGlobPre.length)) := by
  set matched := files.filter (fun f => globMatches metaGlobPre META_SUFFIX f) with hm
  set cands := matched.mergeSort (fun a b => decide (a ≤ b)) with hcands
  have hperm : cands.Perm matched := List.mergeSort_perm matched _
  have hres : _discover_latest_version files = (match cands.getLast? with
      | none => Except.error LoadErr.notFound
      | some latest =>
          if metaGlobPre.isPrefixOf (stem latest)
          then Except.ok ((stem latest).drop metaGlobPre.length)
          else Except.error LoadErr.malformedName) := rfl
  cases hl : cands.getLast? with
  | none =>
    have hcnil : cands = [] := by
      cases hc2 : cands with
      | nil => rfl
      | cons x xs =>
          rw [hc2] at hl
          simp [List.getLast?_concat, List.getLast?] at hl
    have hmnil : matched = [] := by
      have hlen : matched.length = 0 := by rw [← hperm.length_eq, hcnil]; rfl
      exact List.eq_nil_of_length_eq_zero hlen
    refine ⟨⟨fun _ => hmnil, fun _ => by rw [hres, hl]⟩, fun hne => absurd hmnil hne⟩
  | some latest =>
    have hlatest_mem : latest ∈ matched := discover_getLast_mem (hcands ▸ hl)
    have hglob : globMatches metaGlobPre META_SUFFIX latest = true :=
      (List.mem_filter.mp (hm ▸ hlatest_mem)).2
    have hpre := matched_stem hglob
    have hresult : _discover_latest_version files =
        Except.ok ((stem latest).drop metaGlobPre.length) := by
      rw [hres, hl]
      show (if metaGlobPre.isPrefixOf (stem latest) = true
            then Except.ok ((stem latest).drop metaGlobPre.length)
            else Except.error LoadErr.malformedName) = _
      rw [if_pos hpre]
    have hcne : cands ≠ [] := by
      intro h0
      rw [h0] at hl
      simp at hl
    have hmax : ∀ f ∈ matched, f ≤ latest := by
      intro f hf
      have hf2 : f ∈ cands := hperm.mem_iff.mpr hf
      have hle := sorted_le_getLast (hcands ▸ discover_sorted files) hcne f hf2
      rw [List.getLast?_eq_getLast _ hcne] at hl
      rw [← Option.some.inj hl]
      exact hle
    refine ⟨⟨fun h => ?_, fun h0 => ?_⟩, fun _ => ⟨latest, hlatest_mem, hmax, hresult⟩⟩
    · rw [hresult] at h
      exact absurd h (by simp)
    · exact absurd (h0 ▸ hlatest_mem) (List.not_mem_nil _)

/-- C3 witness: among the three example versions, discovery returns
`"20240601-1200"`. -/
theorem C3_discover_latest_version_spec_witness :
    (["cyber_ids_metadata_20240101-0000.json".data,
      "cyber_ids_metadata_20240601-1200.json".data,
      "cyber_ids_metadata_20230101-0000.json".data].filter
        (fun f => globMatches metaGlobPre META_SUFFIX f) ≠ []) ∧
    ∃ m, _discover_latest_version
        ["cyber_ids_metadata_20240101-0000.json".data,
         "cyber_ids_metadata_20240601-1200.json".data,
         "cyber_ids_metadata_20230101-0000.json".data] = Except.ok ((stem m).drop metaGlobPre.length) := by
  refine ⟨by decide, ?_⟩
  obtain ⟨m, _, _, hr⟩ := (C3_discover_latest_version_spec
    ["cyber_ids_metadata_20240101-0000.json".data,
     "cyber_ids_metadata_20240601-1200.json".data,
     "cyber_ids_metadata_20230101-0000.json".data]).2 (by decide)
  exact ⟨m, hr⟩

/-- C10: the defensive `MalformedNameError` branch of version discovery is
unreachable — every glob candidate's stem starts with the expected part, so
discovery can only fail with the no-files-found error. -/
theorem C10_malformed_branch_unreachable (files : List Filename) :
    _discover_latest_version files ≠ Except.error LoadErr.malformedName := by
  set matched := files.filter (fun f => globMatches metaGlobPre META_SUFFIX f) with hm
  set cands := matched.mergeSort (fun a b => decide (a ≤ b)) with hcands
  have hres : _discover_latest_version files = (match cands.getLast? with
      | none => Except.error LoadErr.notFound
      | some latest =>
          if metaGlobPre.isPrefixOf (stem latest)
          then Except.ok ((stem latest).drop metaGlobPre.length)
          else Except.error LoadErr.malformedName) := rfl
  cases hl : cands.getLast? with
  | none =>
    rw [hres, hl]
    simp
  | some latest =>
    have hlatest_mem : latest ∈ matched := discover_getLast_mem (hcands ▸ hl)
    have hglob : globMatches metaGlobPre META_SUFFIX latest = true :=
      (List.mem_filter.mp (hm ▸ hlatest_mem)).2
    rw [hres, hl]
    show (if metaGlobPre.isPrefixOf (stem latest) = true
          then Except.ok ((stem latest).drop metaGlobPre.length)
          else Except.error LoadErr.malformedName) ≠ Except.error LoadErr.malformedName
    rw [if_pos (matched_stem hglob)]
    simp

/-- The slow path of `load_artifacts` after the version is resolved to `v`:
check the four files in order (first missing path wins), then read all four
and build the bundle; `dr` is the disk-access count already spent on version
discovery.  Proof-only restatement of the corresponding source lines. -/
def loadChecked (fs : FS) (cach : Option ArtifactBundle) (uc : Bool) (v : Filename)
    (dr : Nat) : LoadResult :=
  if model_filename v ∉ fs.modelsDir then
    ⟨Except.error (LoadErr.missingArtifact (model_filename v)), cach, dr + 1⟩
  else if feature_list_filename v ∉ fs.metaDir then
    ⟨Except.error (LoadErr.missingArtifact (feature_list_filename v)), cach, dr + 2⟩
  else if metadata_filename v ∉ fs.metaDir then
    ⟨Except.error (LoadErr.missingArtifact (metadata_filename v)), cach, dr + 3⟩
  else if sanitizer_filename v ∉ fs.metaDir then
    ⟨Except.error (LoadErr.missingArtifact (sanitizer_filename v)), cach, dr + 4⟩
  else
    let bundle : ArtifactBundle :=
      { version := v
        model := fs.loadModelBlob (model_filename v)
        feature_names := (fs.featurePayload (feature_list_filename v)).getD []
        metadata := fs.metadataContent (metadata_filename v)
        sanitizer := fs.sanitizerBlob (sanitizer_filename v) }
    ⟨Except.ok bundle, if uc then some bundle else cach, dr + 8⟩

/-- A `load_artifacts` call with an explicit version skips the cache fast
path and discovery and goes straight to the existence checks. -/
theorem load_artifacts_some_eq (fs : FS) (cache : Option ArtifactBundle) (v : Filename)
    (uc : Bool) : load_artifacts fs cache (some v) uc = loadChecked fs cache uc v 0 := by
  cases uc <;> cases cache <;> rfl

/-- A `load_artifacts` call that misses the cache fast path (no cache,
or caching disabled) discovers the latest version and proceeds to the
existence checks. -/
theorem load_artifacts_none_eq (fs : FS) (cache : Option ArtifactBundle) (uc : Bool)
    (h : uc = false ∨ cache = none) :
    load_artifacts fs cache none uc =
      (match _discover_latest_version fs.metaDir with
       | Except.error e => ⟨Except.error e, cache, 1⟩
       | Except.ok v => loadChecked fs cache uc v 1) := by
  rcases h with h | h
  · subst h
    cases cache <;> rfl
  · subst h
    cases uc <;> rfl

/-- The cache slot after the checked-load path: written (with the new
bundle) exactly when the load succeeded and `use_cache` is set. -/
theorem loadChecked_cacheAfter (fs : FS) (cache : Option ArtifactBundle) (uc : Bool)
    (v : Filename) (dr : Nat) :
    (loadChecked fs cache uc v dr).cacheAfter =
      (if uc = true then
        (match (loadChecked fs cache uc v dr).outcome with
         | Except.ok b => some b
         | Except.error _ => cache)
       else cache) := by
  unfold loadChecked
  split_ifs <;> cases uc <;> simp

/-- C5: with the cache populated, `use_cache` true and no explicit version,
`load_artifacts` returns exactly the cached bundle, leaves the cache as it
is, and performs zero disk accesses. -/
theorem C5_load_artifacts_cache_fast_path (fs : FS) (b : ArtifactBundle) :
    load_artifacts fs (some b) none true = ⟨Except.ok b, some b, 0⟩ := rfl

/-- C4: when any of the four artifact files for an explicitly requested
version is absent, `load_artifacts` fails with `MissingArtifactError`
naming a missing path (the first absent one in check order), returns no
bundle, and leaves the cache unchanged. -/
theorem C4_load_artifacts_missing (fs : FS) (cache : Option ArtifactBundle)
    (v : Filename) (uc : Bool)
    (hmiss : ¬(model_filename v ∈ fs.modelsDir ∧ feature_list_filename v ∈ fs.metaDir ∧
      metadata_filename v ∈ fs.metaDir ∧ sanitizer_filename v ∈ fs.metaDir)) :
    (∃ p, (load_artifacts fs cache (some v) uc).outcome =
        Except.error (LoadErr.missingArtifact p) ∧
      ((p = model_filename v ∧ p ∉ fs.modelsDir) ∨
       (p = feature_list_filename v ∧ p ∉ fs.metaDir) ∨
       (p = metadata_filename v ∧ p ∉ fs.metaDir) ∨
       (p = sanitizer_filename v ∧ p ∉ fs.metaDir))) ∧
    (load_artifacts fs cache (some v) uc).cacheAfter = cache := by
  rw [load_artifacts_some_eq]
  unfold loadChecked
  by_cases h1 : model_filename v ∈ fs.modelsDir
  case neg =>
    rw [if_pos h1]
    exact ⟨⟨model_filename v, rfl, Or.inl ⟨rfl, h1⟩⟩, rfl⟩
  rw [if_neg (not_not_intro h1)]
  by_cases h2 : feature_list_filename v ∈ fs.metaDir
  case neg =>
    rw [if_pos h2]
    exact ⟨⟨feature_list_filename v, rfl, Or.inr (Or.inl ⟨rfl, h2⟩)⟩, rfl⟩
  rw [if_neg (not_not_intro h2)]
  by_cases h3 : metadata_filename v ∈ fs.metaDir
  case neg =>
    rw [if_pos h3]
    exact ⟨⟨metadata_filename v, rfl, Or.inr (Or.inr (Or.inl ⟨rfl, h3⟩))⟩, rfl⟩
  rw [if_neg (not_not_intro h3)]
  by_cases h4 : sanitizer_filename v ∈ fs.metaDir
  case neg =>
    rw [if_pos h4]
    exact ⟨⟨sanitizer_filename v, rfl, Or.inr (Or.inr (Or.inr ⟨rfl, h4⟩))⟩, rfl⟩
  exact absurd ⟨h1, h2, h3, h4⟩ hmiss

/-- C4 witness: on an empty filesystem an explicit-version load fails with
`MissingArtifactError` and leaves the (empty) cache untouched. -/
theorem C4_load_artifacts_missing_witness :
    (¬(model_filename "v1".data ∈ fsTriv.modelsDir ∧
       feature_list_filename "v1".data ∈ fsTriv.metaDir ∧
       metadata_filename "v1".data ∈ fsTriv.metaDir ∧
       sanitizer_filename "v1".data ∈ fsTriv.metaDir)) ∧
    (∃ p, (load_artifacts fsTriv none (some "v1".data) true).outcome =
        Except.error (LoadErr.missingArtifact p) ∧
      ((p = model_filename "v1".data ∧ p ∉ fsTriv.modelsDir) ∨
       (p = feature_list_filename "v1".data ∧ p ∉ fsTriv.metaDir) ∨
       (p = metadata_filename "v1".data ∧ p ∉ fsTriv.metaDir) ∨
       (p = sanitizer_filename "v1".data ∧ p ∉ fsTriv.metaDir))) ∧
    (load_artifacts fsTriv none (some "v1".data) true).cacheAfter = none :=
  ⟨by decide, (C4_load_artifacts_missing fsTriv none "v1".data true (by decide)).1,
   (C4_load_artifacts_missing fsTriv none "v1".data true (by decide)).2⟩

/-- A filesystem holding all four artifact files for version `"v1"`. -/
def fsC6 : FS :=
  ⟨[model_filename "v1".data],
   [feature_list_filename "v1".data, metadata_filename "v1".data,
    sanitizer_filename "v1".data],
   fun _ => fun _ => [], fun _ => none, fun _ => [], fun _ => ⟨[], []⟩⟩

/-- C6 counterexample: starting from an empty cache, a `load_artifacts` call
with an explicitly given version (`"v1"`) and `use_cache` true DOES write
the process-wide cache slot — the source's guard `use_cache and version is
not None` is always satisfied after resolution, so explicit-version loads
overwrite the cache, contrary to the claim. -/
theorem C6_cache_write_counterexample :
    (load_artifacts fsC6 none (some "v1".data) true).cacheAfter.isSome = true := by rfl

/-- C6 (amended): the cache slot is written — with the returned bundle — by
every successful `load_artifacts` call with `use_cache` true, whether or not
a version was explicitly requested; failed loads and `use_cache = false`
leave it unchanged. -/
theorem C6_cache_write_amended (fs : FS) (cache : Option ArtifactBundle)
    (version : Option Filename) (uc : Bool) :
    (load_artifacts fs cache version uc).cacheAfter =
      (if uc = true then
        (match (load_artifacts fs cache version uc).outcome with
         | Except.ok b => some b
         | Except.error _ => cache)
       else cache) := by
  cases version with
  | some v =>
    rw [load_artifacts_some_eq]
    exact loadChecked_cacheAfter fs cache uc v 0
  | none =>
    by_cases hfast : uc = true ∧ cache.isSome = true
    · obtain ⟨hu, hs⟩ := hfast
      obtain ⟨b, rfl⟩ := Option.isSome_iff_exists.mp hs
      subst hu
      rfl
    · have h : uc = false ∨ cache = none := by
        cases uc with
        | false => exact Or.inl rfl
        | true =>
          refine Or.inr ?_
          cases cache with
          | none => rfl
          | some b => exact absurd ⟨rfl, rfl⟩ hfast
      rw [load_artifacts_none_eq fs cache uc h]
      cases hr : _discover_latest_version fs.metaDir with
      | error e => cases uc <;> simp
      | ok v => exact loadChecked_cacheAfter fs cache uc v 1

/-- C10 witness: on a concrete directory listing the discovery result is not
the malformed-name error. -/
theorem C10_malformed_branch_unreachable_witness :
    _discover_latest_version ["cyber_ids_metadata_20240101-0000.json".data] ≠
      Except.error LoadErr.malformedName :=
  C10_malformed_branch_unreachable ["cyber_ids_metadata_20240101-0000.json".data]
